import Mathlib

/-!
# Verification of the offline cache manager (service worker)

Shallow embedding of the service worker shipped with the site
(the `sw.js` source reproduced in `src/SECURITY.md`): cache constants and
static manifest, the install / activate / fetch / message handlers, and the
cache store they operate on.  Named caches are modelled as an association
list from partition name to an association list from request URL to a
stored response; promises are modelled by explicit result values
(`Option` for fulfilment/rejection, explicit outcome datatypes for the
fetch interception).
-/

namespace SW

/-- `const CACHE_NAME = 'bastelglueck-v1'` -/
def CACHE_NAME : String := "bastelglueck-v1"

/-- `const STATIC_CACHE = 'bastelglueck-static-v1'` -/
def STATIC_CACHE : String := "bastelglueck-static-v1"

/-- `const DYNAMIC_CACHE = 'bastelglueck-dynamic-v1'` -/
def DYNAMIC_CACHE : String := "bastelglueck-dynamic-v1"

/-- `const STATIC_FILES = [...]`, the fixed install-time manifest. -/
def STATIC_FILES : List String :=
  ["/", "/index.html", "/css/styles.css", "/js/main.js", "/manifest.json",
   "/files/DSC_5600.jpeg"]

/-- The `Response.type` values of the Fetch standard (`'basic'`, `'cors'`,
`'opaque'`, `'opaqueredirect'`, `'default'`, `'error'`). -/
inductive ResponseType where
  | basic
  | cors
  | opaqueResp
  | opaqueRedirect
  | defaultResp
  | errorResp
deriving DecidableEq, Repr

/-- The parts of a fetch `Response` the worker inspects or produces:
`status`, `type`, `redirected`, the body text, and the `Content-Type`
header. -/
structure Response where
  status : Nat
  type : ResponseType
  redirected : Bool
  body : String
  contentType : String
deriving DecidableEq, Repr

/-- The parts of a fetch `Request` the worker inspects: `method`, `url` and
the `accept` header (`headers.get('accept')` is `null` — here `none` — when
the request carries no accept header). -/
structure Request where
  method : String
  url : String
  accept : Option String
deriving DecidableEq, Repr

/-- One named cache partition: request URL to stored response, in insertion
order. -/
abbrev CacheEntries := List (String × Response)

/-- The whole Cache Storage: named partitions in creation order. -/
abbrev CacheStore := List (String × CacheEntries)

/-- `list.startsWith`-style prefix test on character lists, used to embed
JavaScript `String.prototype.startsWith`. -/
def listStarts : List Char → List Char → Bool
  | _, [] => true
  | [], _ :: _ => false
  | a :: as, b :: bs => a = b && listStarts as bs

/-- JavaScript `haystack.startsWith(needle)`. -/
def jsStartsWith (haystack needle : String) : Bool :=
  listStarts haystack.toList needle.toList

/-- Substring occurrence on character lists. -/
def listHasSub : List Char → List Char → Bool
  | [], sub => sub.isEmpty
  | a :: t, sub => listStarts (a :: t) sub || listHasSub t sub

/-- JavaScript `haystack.includes(needle)`. -/
def jsIncludes (haystack needle : String) : Bool :=
  listHasSub haystack.toList needle.toList

/-- `cache.match(url)` within one partition: first entry stored under the
URL. -/
def entryLookup : CacheEntries → String → Option Response
  | [], _ => none
  | (u, r) :: es, url => if u = url then some r else entryLookup es url

/-- `cache.put(url, response)`: overwrite the entry for the URL if present,
otherwise append it. -/
def entryPut : CacheEntries → String → Response → CacheEntries
  | [], url, r => [(url, r)]
  | (u, r0) :: es, url, r =>
      if u = url then (url, r) :: es else (u, r0) :: entryPut es url r

/-- `caches.match(url)`: search every partition in creation order. -/
def cachesMatch : CacheStore → String → Option Response
  | [], _ => none
  | (_, es) :: cs, url =>
      match entryLookup es url with
      | some r => some r
      | none => cachesMatch cs url

/-- Contents of the partition with the given name, when it exists. -/
def getPartition : CacheStore → String → Option CacheEntries
  | [], _ => none
  | (n, es) :: cs, name => if n = name then some es else getPartition cs name

/-- `caches.delete(name)`: remove the partition with the given name. -/
def deletePartition : CacheStore → String → CacheStore
  | [], _ => []
  | (n, es) :: cs, name =>
      if n = name then deletePartition cs name
      else (n, es) :: deletePartition cs name

/-- Replace the contents of an existing partition (in-place mutation of an
opened cache). -/
def setPartition : CacheStore → String → CacheEntries → CacheStore
  | [], _, _ => []
  | (n, es0) :: cs, name, es =>
      if n = name then (n, es) :: cs else (n, es0) :: setPartition cs name es

/-- `caches.open(name)` as a store transformation: create the partition
empty when absent, leave the store unchanged otherwise. -/
def openPartition (store : CacheStore) (name : String) : CacheStore :=
  if (getPartition store name).isSome then store else store ++ [(name, [])]

/-- `caches.open(name).then(cache => cache.put(url, r))`: put into the
named partition, creating it when absent. -/
def openAndPut : CacheStore → String → String → Response → CacheStore
  | [], name, url, r => [(name, [(url, r)])]
  | (n, es) :: cs, name, url, r =>
      if n = name then (n, entryPut es url r) :: cs
      else (n, es) :: openAndPut cs name url r

/-- The network, as the worker sees it: a URL either yields a response
(fulfilled fetch) or fails (`none` — rejected fetch). -/
abbrev Network := String → Option Response

/-- `cache.addAll(paths)` into a partition with current entries `es`:
fetch every path in order and store it; reject (`none`) as soon as one
fetch fails, in which case nothing is committed. -/
def addAllInto (net : Network) : List String → CacheEntries → Option CacheEntries
  | [], es => some es
  | p :: ps, es =>
      match net p with
      | some r => addAllInto net ps (entryPut es p r)
      | none => none

/-- What the install handler's `waitUntil` promise chain produced:
the resulting store, whether `self.skipWaiting()` was called, and whether
the promise handed to `waitUntil` rejected. -/
structure InstallResult where
  store : CacheStore
  skipWaitingCalled : Bool
  waitUntilRejected : Bool
deriving DecidableEq, Repr

/-- The `install` handler:
`caches.open(STATIC_CACHE).then(cache => cache.addAll(STATIC_FILES))
 .then(() => self.skipWaiting()).catch(error => console.error(...))`.
The trailing `.catch` turns any rejection into fulfilment, so the promise
given to `waitUntil` never rejects; `skipWaiting` runs only on the success
path. -/
def installHandler (store0 : CacheStore) (net : Network) : InstallResult :=
  let es0 := (getPartition store0 STATIC_CACHE).getD []
  let store1 := openPartition store0 STATIC_CACHE
  match addAllInto net STATIC_FILES es0 with
  | some es =>
      { store := setPartition store1 STATIC_CACHE es
        skipWaitingCalled := true
        waitUntilRejected := false }
  | none =>
      { store := store1
        skipWaitingCalled := false
        waitUntilRejected := false }

/-- The `activate` handler: `caches.keys()` then delete every cache whose
name is neither `STATIC_CACHE` nor `DYNAMIC_CACHE`. -/
def activateHandler (store : CacheStore) : CacheStore :=
  store.filter (fun p => p.1 == STATIC_CACHE || p.1 == DYNAMIC_CACHE)

/-- Body of the synthesized offline placeholder image. -/
def offlineImageBody : String :=
  "<svg xmlns=\"http://www.w3.org/2000/svg\" width=\"200\" height=\"200\" viewBox=\"0 0 200 200\"><rect width=\"200\" height=\"200\" fill=\"#f0f0f0\"/><text x=\"100\" y=\"100\" text-anchor=\"middle\" fill=\"#999\">Bild nicht verfügbar</text></svg>"

/-- `new Response(svg, { headers: { 'Content-Type': 'image/svg+xml' } })`:
a synthesized response has status 200 and type `default`. -/
def offlineImageResponse : Response :=
  { status := 200
    type := .defaultResp
    redirected := false
    body := offlineImageBody
    contentType := "image/svg+xml" }

/-- How the fetch interception ended, as observed by the page. -/
inductive FetchOutcome where
  /-- The handler returned before calling `event.respondWith`. -/
  | passThrough
  /-- `respondWith` resolved with this response. -/
  | served (r : Response)
  /-- `respondWith` resolved with `undefined`
  (`caches.match('/index.html')` found nothing). -/
  | servedUndefined
  /-- The original network error was rethrown to the page. -/
  | networkFailure
  /-- `null.includes(...)`: a `TypeError` escaped the handler. -/
  | typeError
deriving DecidableEq, Repr

/-- Result of one fetch interception: the outcome, the store after the
interception (including the dynamic-cache write), and how many network
fetches were issued. -/
structure FetchResult where
  outcome : FetchOutcome
  store : CacheStore
  netCalls : Nat
deriving DecidableEq, Repr

/-- The `fetch` handler. Guards: non-GET methods and URLs that do not
start with `self.location.origin` are not intercepted. Then cache-first:
a `caches.match` hit is returned as stored; on a miss the network is
fetched, a `status === 200 && type === 'basic'` response is cloned into
`DYNAMIC_CACHE` and returned, any other response is returned uncached, and
a network failure falls back by `accept` header (cached `/index.html` for
HTML, the synthesized SVG for images, otherwise the error is rethrown;
a missing accept header makes `null.includes` throw a `TypeError`). -/
def handleFetch (origin : String) (store : CacheStore) (net : Network)
    (req : Request) : FetchResult :=
  if req.method ≠ "GET" then ⟨.passThrough, store, 0⟩
  else if jsStartsWith req.url origin = false then ⟨.passThrough, store, 0⟩
  else
    match cachesMatch store req.url with
    | some r => ⟨.served r, store, 0⟩
    | none =>
        match net req.url with
        | some resp =>
            if resp.status ≠ 200 ∨ resp.type ≠ .basic then
              ⟨.served resp, store, 1⟩
            else
              ⟨.served resp, openAndPut store DYNAMIC_CACHE req.url resp, 1⟩
        | none =>
            match req.accept with
            | none => ⟨.typeError, store, 1⟩
            | some a =>
                if jsIncludes a "text/html" then
                  match cachesMatch store "/index.html" with
                  | some home => ⟨.served home, store, 1⟩
                  | none => ⟨.servedUndefined, store, 1⟩
                else if jsIncludes a "image" then
                  ⟨.served offlineImageResponse, store, 1⟩
                else ⟨.networkFailure, store, 1⟩

/-- `event.data` of a `message` event, when it is an object with a `type`
field. -/
structure MessageData where
  type : String
deriving DecidableEq, Repr

/-- Observable effects of one `message` event: whether `skipWaiting` was
called, the `version` string posted back on `event.ports[0]` (if any), the
store afterwards, and whether a `waitUntil` promise rejected. -/
structure MessageEffects where
  skipWaitingCalled : Bool
  postedVersion : Option String
  store : CacheStore
  waitUntilRejected : Bool
deriving DecidableEq, Repr

/-- The `CACHE_UPDATE` branch of the message handler:
`caches.delete(STATIC_CACHE).then(() => caches.open(STATIC_CACHE))
 .then(cache => cache.addAll(STATIC_FILES))`, with no `.catch`, so a
failed `addAll` rejects the `waitUntil` promise and leaves the recreated
partition empty. -/
def cacheUpdateHandler (store : CacheStore) (net : Network) :
    CacheStore × Bool :=
  let store1 := deletePartition store STATIC_CACHE
  match addAllInto net STATIC_FILES [] with
  | some es => (store1 ++ [(STATIC_CACHE, es)], false)
  | none => (store1 ++ [(STATIC_CACHE, [])], true)

/-- The `message` handler: three independent `if`s on `event.data.type`
(`SKIP_WAITING`, `GET_VERSION` — which posts `{ version: CACHE_NAME }` —
and `CACHE_UPDATE`). -/
def messageHandler (store : CacheStore) (net : Network)
    (data : Option MessageData) : MessageEffects :=
  match data with
  | none => ⟨false, none, store, false⟩
  | some d =>
      let upd :=
        if d.type = "CACHE_UPDATE" then cacheUpdateHandler store net
        else (store, false)
      { skipWaitingCalled := d.type == "SKIP_WAITING"
        postedVersion :=
          if d.type = "GET_VERSION" then some CACHE_NAME else none
        store := upd.1
        waitUntilRejected := upd.2 }

/-- Origin of a URL read off its text (scheme and host: everything before
the third `/`), used to state what "same origin" means independently of
the code's prefix test. -/
def takeUntilThirdSlash : List Char → Nat → List Char
  | [], _ => []
  | c :: cs, k =>
      if c = '/' then
        if k + 1 = 3 then [] else c :: takeUntilThirdSlash cs (k + 1)
      else c :: takeUntilThirdSlash cs k

/-- Modelled from the spec: the origin of a request URL ("a different
origin than the worker's own"), i.e. its `scheme://host` part. -/
def urlOriginOf (u : String) : String :=
  ⟨takeUntilThirdSlash u.toList 0⟩

/-- A plain cacheable response, for concrete evaluations. -/
def demoResponse : Response :=
  { status := 200, type := .basic, redirected := false, body := "hello",
    contentType := "text/plain" }

/-- A cached copy of the home document, for concrete evaluations. -/
def demoHome : Response :=
  { status := 200, type := .basic, redirected := false,
    body := "<html>home</html>", contentType := "text/html" }

/-- A same-origin `basic` 200 response that went through a redirect. -/
def redirectedResponse : Response :=
  { status := 200, type := .basic, redirected := true, body := "moved",
    contentType := "text/plain" }

/-- A network on which every fetch succeeds. -/
def goodNet : Network := fun _ => some demoResponse

/-! ## Lemmas on the cache-store operations -/

theorem entryLookup_entryPut (es : CacheEntries) (u : String) (r : Response)
    (p : String) :
    entryLookup (entryPut es u r) p =
      if u = p then some r else entryLookup es p := by
  induction es with
  | nil => simp [entryPut, entryLookup]
  | cons hd tl ih =>
    obtain ⟨v, s⟩ := hd
    by_cases hvu : v = u
    · subst hvu
      by_cases hvp : v = p <;> simp [entryPut, entryLookup, hvp]
    · by_cases hvp : v = p
      · have hup : u ≠ p := fun h => hvu (hvp.trans h.symm)
        have hpu : p ≠ u := fun h => hup h.symm
        simp [entryPut, entryLookup, hvp, hup, hpu]
      · simp [entryPut, hvu, entryLookup, hvp, ih]

theorem cachesMatch_eq_none_cons {n : String} {es : CacheEntries}
    {cs : CacheStore} {url : String}
    (h : cachesMatch ((n, es) :: cs) url = none) :
    entryLookup es url = none ∧ cachesMatch cs url = none := by
  cases he : entryLookup es url with
  | some r => simp [cachesMatch, he] at h
  | none =>
    simp only [cachesMatch, he] at h
    exact ⟨rfl, h⟩

theorem cachesMatch_openAndPut (store : CacheStore) (name url : String)
    (r : Response) (h : cachesMatch store url = none) :
    cachesMatch (openAndPut store name url r) url = some r := by
  induction store with
  | nil => simp [openAndPut, cachesMatch, entryLookup]
  | cons hd cs ih =>
    obtain ⟨n, es⟩ := hd
    obtain ⟨h1, h2⟩ := cachesMatch_eq_none_cons h
    by_cases hn : n = name
    · subst hn
      simp [openAndPut, cachesMatch, entryLookup_entryPut]
    · simp [openAndPut, hn, cachesMatch, h1, ih h2]

theorem getPartition_openAndPut (store : CacheStore) (name url : String)
    (r : Response) (h : cachesMatch store url = none) :
    ∃ es, getPartition (openAndPut store name url r) name = some es ∧
      entryLookup es url = some r := by
  induction store with
  | nil =>
    refine ⟨[(url, r)], ?_, ?_⟩ <;> simp [openAndPut, getPartition, entryLookup]
  | cons hd cs ih =>
    obtain ⟨n, es⟩ := hd
    obtain ⟨h1, h2⟩ := cachesMatch_eq_none_cons h
    by_cases hn : n = name
    · subst hn
      exact ⟨entryPut es url r, by simp [openAndPut, getPartition],
        by simp [entryLookup_entryPut]⟩
    · obtain ⟨es', he1, he2⟩ := ih h2
      exact ⟨es', by simp [openAndPut, hn, getPartition, he1], he2⟩

theorem addAllInto_preserves (net : Network) (ps : List String) :
    ∀ (es es' : CacheEntries) (p : String),
      (entryLookup es p).isSome = true → addAllInto net ps es = some es' →
      (entryLookup es' p).isSome = true := by
  induction ps with
  | nil =>
    intro es es' p h1 h2
    simp only [addAllInto, Option.some_inj] at h2
    subst h2; exact h1
  | cons q ps ih =>
    intro es es' p h1 h2
    cases hq : net q with
    | none =>
      simp only [addAllInto, hq] at h2
      exact Option.noConfusion h2
    | some r =>
      simp only [addAllInto, hq] at h2
      refine ih _ _ _ ?_ h2
      rw [entryLookup_entryPut]
      by_cases hqp : q = p <;> simp [hqp, h1]

theorem addAllInto_lookup_isSome (net : Network) (ps : List String) :
    ∀ (es es' : CacheEntries) (p : String),
      p ∈ ps → addAllInto net ps es = some es' →
      (entryLookup es' p).isSome = true := by
  induction ps with
  | nil => intro es es' p hp; simp at hp
  | cons q ps ih =>
    intro es es' p hp h2
    cases hq : net q with
    | none =>
      simp only [addAllInto, hq] at h2
      exact Option.noConfusion h2
    | some r =>
      simp only [addAllInto, hq] at h2
      rcases List.mem_cons.mp hp with rfl | hp'
      · refine addAllInto_preserves net ps _ _ _ ?_ h2
        simp [entryLookup_entryPut]
      · exact ih _ _ _ hp' h2

theorem addAllInto_total (net : Network) (ps : List String)
    (h : ∀ p ∈ ps, (net p).isSome = true) :
    ∀ es : CacheEntries, (addAllInto net ps es).isSome = true := by
  induction ps with
  | nil => intro es; simp [addAllInto]
  | cons q ps ih =>
    intro es
    have hq : (net q).isSome = true := h q (List.mem_cons_self q ps)
    cases hq2 : net q with
    | none => rw [hq2] at hq; simp at hq
    | some r =>
      simp only [addAllInto, hq2]
      exact ih (fun p hp => h p (List.mem_cons_of_mem q hp)) _

theorem entryPut_of_not_mem (es : CacheEntries) (p : String) (r : Response)
    (h : p ∉ es.map Prod.fst) : entryPut es p r = es ++ [(p, r)] := by
  induction es with
  | nil => simp [entryPut]
  | cons hd tl ih =>
    obtain ⟨v, s⟩ := hd
    simp only [List.map_cons, List.mem_cons] at h
    push_neg at h
    simp [entryPut, Ne.symm h.1, ih h.2]

theorem addAllInto_notin (net : Network) (ps : List String) :
    ∀ (es es' : CacheEntries) (p : String),
      p ∉ ps → addAllInto net ps es = some es' →
      entryLookup es' p = entryLookup es p := by
  induction ps with
  | nil =>
    intro es es' p _ h2
    simp only [addAllInto, Option.some_inj] at h2
    subst h2; rfl
  | cons q ps ih =>
    intro es es' p hp h2
    cases hq : net q with
    | none =>
      simp only [addAllInto, hq] at h2
      exact Option.noConfusion h2
    | some r =>
      simp only [addAllInto, hq] at h2
      have hqp : q ≠ p := fun h => hp (h ▸ List.mem_cons_self q ps)
      rw [ih _ _ _ (fun h => hp (List.mem_cons_of_mem q h)) h2,
        entryLookup_entryPut, if_neg hqp]

theorem addAllInto_fresh_keys (net : Network) (ps : List String) :
    ∀ (es es' : CacheEntries), ps.Nodup →
      (∀ q ∈ ps, q ∉ es.map Prod.fst) → addAllInto net ps es = some es' →
      es'.map Prod.fst = es.map Prod.fst ++ ps := by
  induction ps with
  | nil =>
    intro es es' _ _ h2
    simp only [addAllInto, Option.some_inj] at h2
    subst h2; simp
  | cons q ps ih =>
    intro es es' hnd hfresh h2
    cases hq : net q with
    | none =>
      simp only [addAllInto, hq] at h2
      exact Option.noConfusion h2
    | some r =>
      simp only [addAllInto, hq] at h2
      rw [entryPut_of_not_mem es q r (hfresh q (List.mem_cons_self q ps))] at h2
      have hnd' := (List.nodup_cons.mp hnd).2
      have hqps := (List.nodup_cons.mp hnd).1
      have hfresh' : ∀ p ∈ ps, p ∉ (es ++ [(q, r)]).map Prod.fst := by
        intro p hp
        simp only [List.map_append, List.mem_append, List.map_cons,
          List.map_nil, List.mem_singleton]
        push_neg
        exact ⟨hfresh p (List.mem_cons_of_mem q hp),
          fun h => hqps (h ▸ hp)⟩
      rw [ih _ _ hnd' hfresh' h2]
      simp

theorem addAllInto_fresh_lookup (net : Network) (ps : List String) :
    ∀ (es es' : CacheEntries) (p : String), ps.Nodup →
      (∀ q ∈ ps, q ∉ es.map Prod.fst) → addAllInto net ps es = some es' →
      p ∈ ps → entryLookup es' p = net p := by
  induction ps with
  | nil => intro es es' p _ _ _ hp; simp at hp
  | cons q ps ih =>
    intro es es' p hnd hfresh h2 hp
    cases hq : net q with
    | none =>
      simp only [addAllInto, hq] at h2
      exact Option.noConfusion h2
    | some r =>
      simp only [addAllInto, hq] at h2
      have hnd' := (List.nodup_cons.mp hnd).2
      have hqps := (List.nodup_cons.mp hnd).1
      rcases List.mem_cons.mp hp with rfl | hp'
      · rw [addAllInto_notin net ps _ _ _ hqps h2, entryLookup_entryPut,
          if_pos rfl, hq]
      · refine ih _ _ _ hnd' ?_ h2 hp'
        intro p' hp'mem
        rw [entryPut_of_not_mem es q r (hfresh q (List.mem_cons_self q ps))]
        simp only [List.map_append, List.mem_append, List.map_cons,
          List.map_nil, List.mem_singleton]
        push_neg
        exact ⟨hfresh p' (List.mem_cons_of_mem q hp'mem),
          fun h => hqps (h ▸ hp'mem)⟩

theorem getPartition_deletePartition (store : CacheStore) (name : String) :
    getPartition (deletePartition store name) name = none := by
  induction store with
  | nil => rfl
  | cons hd cs ih =>
    obtain ⟨n, es⟩ := hd
    by_cases hn : n = name
    · simp [deletePartition, hn, ih]
    · simp [deletePartition, hn, getPartition, ih]

theorem getPartition_append_right (xs ys : CacheStore) (name : String)
    (h : getPartition xs name = none) :
    getPartition (xs ++ ys) name = getPartition ys name := by
  induction xs with
  | nil => rfl
  | cons hd cs ih =>
    obtain ⟨n, es⟩ := hd
    by_cases hn : n = name
    · simp [getPartition, hn] at h
    · simp only [getPartition, hn, if_false, List.cons_append] at h ⊢
      exact ih h

theorem getPartition_setPartition (store : CacheStore) (name : String)
    (es : CacheEntries) (h : (getPartition store name).isSome = true) :
    getPartition (setPartition store name es) name = some es := by
  induction store with
  | nil => simp [getPartition] at h
  | cons hd cs ih =>
    obtain ⟨n, es0⟩ := hd
    by_cases hn : n = name
    · simp [setPartition, hn, getPartition]
    · simp only [getPartition, if_neg hn] at h
      simp [setPartition, hn, getPartition, ih h]

theorem getPartition_openPartition_isSome (store : CacheStore)
    (name : String) :
    (getPartition (openPartition store name) name).isSome = true := by
  unfold openPartition
  cases h : (getPartition store name).isSome with
  | true => simp [h]
  | false =>
    simp only [h, Bool.false_eq_true, if_false]
    rw [getPartition_append_right]
    · simp [getPartition]
    · cases h2 : getPartition store name with
      | none => rfl
      | some es => rw [h2] at h; simp at h

/-- Evaluation of the fetch handler on a cache miss whose network fetch
fulfilled: the response is served, and it is written to the dynamic cache
exactly when `status === 200 && type === 'basic'`. -/
theorem handleFetch_miss_net (origin : String) (store : CacheStore)
    (net : Network) (req : Request) (resp : Response)
    (hm : req.method = "GET") (ho : jsStartsWith req.url origin = true)
    (hmiss : cachesMatch store req.url = none)
    (hnet : net req.url = some resp) :
    handleFetch origin store net req =
      if resp.status ≠ 200 ∨ resp.type ≠ ResponseType.basic then
        ⟨.served resp, store, 1⟩
      else ⟨.served resp, openAndPut store DYNAMIC_CACHE req.url resp, 1⟩ := by
  simp [handleFetch, hm, ho, hmiss, hnet]

/-! ## The claims -/

/-- C6: for every intercepted GET request whose URL has a matching entry in
the combined cache store, the stored response is returned verbatim and no
network fetch is issued (`netCalls = 0`, store unchanged). -/
theorem c6_cache_hit_no_network (origin : String) (store : CacheStore)
    (net : Network) (req : Request) (r : Response)
    (hm : req.method = "GET") (ho : jsStartsWith req.url origin = true)
    (hhit : cachesMatch store req.url = some r) :
    handleFetch origin store net req = ⟨.served r, store, 0⟩ := by
  simp [handleFetch, hm, ho, hhit]

theorem c6_cache_hit_no_network_witness :
    handleFetch "https://o" [(STATIC_CACHE, [("https://o/a", demoResponse)])]
      (fun _ => none) ⟨"GET", "https://o/a", none⟩ =
      ⟨.served demoResponse,
        [(STATIC_CACHE, [("https://o/a", demoResponse)])], 0⟩ :=
  c6_cache_hit_no_network "https://o" _ _ _ demoResponse rfl (by decide)
    (by decide)

/-- C7: activation deletes exactly the cache partitions whose name is
neither the current static identifier nor the current dynamic identifier:
afterwards every remaining partition carries one of the two names, and
every partition that carried one of the two names survives. -/
theorem c7_activate_prunes_partitions (store : CacheStore) :
    (∀ p ∈ activateHandler store,
      p.1 = STATIC_CACHE ∨ p.1 = DYNAMIC_CACHE)
    ∧ (∀ p ∈ store,
        p.1 = STATIC_CACHE ∨ p.1 = DYNAMIC_CACHE →
        p ∈ activateHandler store) := by
  constructor
  · intro p hp
    have h := List.of_mem_filter hp
    simpa using h
  · intro p hp h
    refine List.mem_filter.mpr ⟨hp, ?_⟩
    simpa using h

theorem c7_activate_prunes_partitions_witness :
    ((STATIC_CACHE, ([] : CacheEntries)).1 = STATIC_CACHE ∨
      (STATIC_CACHE, ([] : CacheEntries)).1 = DYNAMIC_CACHE) ∧
    ((STATIC_CACHE, ([] : CacheEntries)) ∈
      activateHandler [("bastelglueck-old", []), (STATIC_CACHE, [])]) :=
  ⟨(c7_activate_prunes_partitions
      [("bastelglueck-old", []), (STATIC_CACHE, [])]).1
      (STATIC_CACHE, []) (by decide),
   (c7_activate_prunes_partitions
      [("bastelglueck-old", []), (STATIC_CACHE, [])]).2
      (STATIC_CACHE, []) (by decide) (Or.inl rfl)⟩

/-- C10: an intercepted GET request that misses the cache, fails on network
and carries no accept header makes the fallback code dereference `null`
(`null.includes`), so a `TypeError` escapes instead of any fallback or the
original network error. -/
theorem c10_missing_accept_type_error (origin : String) (store : CacheStore)
    (net : Network) (req : Request)
    (hm : req.method = "GET") (ho : jsStartsWith req.url origin = true)
    (hmiss : cachesMatch store req.url = none) (hnet : net req.url = none)
    (hacc : req.accept = none) :
    handleFetch origin store net req = ⟨.typeError, store, 1⟩ := by
  simp [handleFetch, hm, ho, hmiss, hnet, hacc]

theorem c10_missing_accept_type_error_witness :
    handleFetch "https://o" [] (fun _ => none)
      ⟨"GET", "https://o/a", none⟩ = ⟨.typeError, [], 1⟩ :=
  c10_missing_accept_type_error "https://o" [] (fun _ => none)
    ⟨"GET", "https://o/a", none⟩ rfl (by decide) rfl rfl rfl

/-- C5: the fetch handler's origin guard is the string-prefix test
`url.startsWith(self.location.origin)`, not an origin comparison: a GET
request to `https://netzscout.github.io.evil.com/x` is NOT on the origin
`https://netzscout.github.io`, yet the handler intercepts it (it does not
pass through), contradicting the claim that every cross-origin request is
returned to default network handling. -/
theorem c5_cross_origin_prefix_intercepted :
    urlOriginOf "https://netzscout.github.io.evil.com/x" ≠
      "https://netzscout.github.io"
    ∧ (handleFetch "https://netzscout.github.io" [] (fun _ => none)
        ⟨"GET", "https://netzscout.github.io.evil.com/x", none⟩).outcome ≠
        FetchOutcome.passThrough := by
  exact ⟨by decide, by decide⟩

/-- C1, counterexample: on a network where every manifest fetch fails,
populating the static cache fails (`addAll` rejects), yet the promise
handed to `waitUntil` does NOT reject — the trailing `.catch` swallows the
error, so installation is not aborted (skipWaiting is merely skipped). -/
theorem c1_install_failure_not_rejected_cex :
    addAllInto (fun _ => none) STATIC_FILES [] = none
    ∧ installHandler [] (fun _ => none) =
        { store := [(STATIC_CACHE, [])]
          skipWaitingCalled := false
          waitUntilRejected := false } := by
  exact ⟨rfl, by decide⟩

/-- C1, amended: the promise given to the install event's `waitUntil`
never rejects (the `.catch` turns population failure into fulfilment, so
the new worker still takes over); `skipWaiting` is signalled exactly when
`cache.addAll` succeeded, in which case every manifest path is stored in
the static cache. -/
theorem c1_install_catch_swallows_amended (store0 : CacheStore)
    (net : Network) :
    (installHandler store0 net).waitUntilRejected = false
    ∧ ((installHandler store0 net).skipWaitingCalled = true ↔
        (addAllInto net STATIC_FILES
          ((getPartition store0 STATIC_CACHE).getD [])).isSome = true)
    ∧ ((installHandler store0 net).skipWaitingCalled = true →
        ∃ es, getPartition (installHandler store0 net).store STATIC_CACHE =
            some es
          ∧ ∀ p ∈ STATIC_FILES, (entryLookup es p).isSome = true) := by
  cases hadd : addAllInto net STATIC_FILES
      ((getPartition store0 STATIC_CACHE).getD []) with
  | none => refine ⟨?_, ?_, ?_⟩ <;> simp [installHandler, hadd]
  | some es =>
    refine ⟨?_, ?_, ?_⟩
    · simp [installHandler, hadd]
    · simp [installHandler, hadd]
    · intro _
      refine ⟨es, ?_, ?_⟩
      · simp only [installHandler, hadd]
        exact getPartition_setPartition _ _ _
          (getPartition_openPartition_isSome store0 STATIC_CACHE)
      · intro p hp
        exact addAllInto_lookup_isSome net STATIC_FILES _ _ p hp hadd

theorem c1_install_catch_swallows_witness :
    (installHandler [] goodNet).waitUntilRejected = false
    ∧ (installHandler [] goodNet).skipWaitingCalled = true :=
  ⟨(c1_install_catch_swallows_amended [] goodNet).1,
   ((c1_install_catch_swallows_amended [] goodNet).2.1).mpr (by decide)⟩

/-- C2, counterexample: the network-success branch checks only
`status !== 200 || type !== 'basic'`; `redirected` is never consulted, so
a redirected same-origin 200 `basic` response IS written to the dynamic
cache, contradicting "redirected ... responses are ... never cached". -/
theorem c2_redirected_response_cached_cex :
    redirectedResponse.redirected = true
    ∧ (handleFetch "https://o" [] (fun _ => some redirectedResponse)
        ⟨"GET", "https://o/r", none⟩).store =
        [(DYNAMIC_CACHE, [("https://o/r", redirectedResponse)])] := by
  exact ⟨rfl, by decide⟩

/-- C2, amended: for an intercepted same-origin GET request that misses
the cache and succeeds on network, an entry is written to the dynamic
cache if and only if the response has status exactly 200 and `basic`
response type (the `redirected` flag is not consulted); responses failing
that test are returned to the page unmodified and never cached. -/
theorem c2_dynamic_cache_write_amended (origin : String) (store : CacheStore)
    (net : Network) (req : Request) (resp : Response)
    (hm : req.method = "GET") (ho : jsStartsWith req.url origin = true)
    (hmiss : cachesMatch store req.url = none)
    (hnet : net req.url = some resp) :
    (resp.status = 200 ∧ resp.type = ResponseType.basic →
      handleFetch origin store net req =
        ⟨.served resp, openAndPut store DYNAMIC_CACHE req.url resp, 1⟩
      ∧ ∃ es, getPartition (handleFetch origin store net req).store
            DYNAMIC_CACHE = some es
          ∧ entryLookup es req.url = some resp)
    ∧ (¬(resp.status = 200 ∧ resp.type = ResponseType.basic) →
        handleFetch origin store net req = ⟨.served resp, store, 1⟩) := by
  have hev := handleFetch_miss_net origin store net req resp hm ho hmiss hnet
  constructor
  · rintro ⟨hs, ht⟩
    have heq : handleFetch origin store net req =
        ⟨.served resp, openAndPut store DYNAMIC_CACHE req.url resp, 1⟩ := by
      rw [hev, if_neg]
      simp [hs, ht]
    refine ⟨heq, ?_⟩
    rw [heq]
    exact getPartition_openAndPut store DYNAMIC_CACHE req.url resp hmiss
  · intro hns
    have hcond : resp.status ≠ 200 ∨ resp.type ≠ ResponseType.basic := by
      by_cases hs : resp.status = 200
      · exact Or.inr (fun ht => hns ⟨hs, ht⟩)
      · exact Or.inl hs
    rw [hev, if_pos hcond]

theorem c2_dynamic_cache_write_witness :
    handleFetch "https://o" [] goodNet ⟨"GET", "https://o/w", none⟩ =
      ⟨.served demoResponse,
        openAndPut [] DYNAMIC_CACHE "https://o/w" demoResponse, 1⟩ :=
  ((c2_dynamic_cache_write_amended "https://o" [] goodNet
      ⟨"GET", "https://o/w", none⟩ demoResponse rfl (by decide) rfl rfl).1
    ⟨rfl, rfl⟩).1

/-- C3, counterexample: a `{type: 'GET_VERSION'}` message is answered with
`{version: CACHE_NAME}`; `CACHE_NAME` (`'bastelglueck-v1'`) is not the
static cache's identifier (`STATIC_CACHE = 'bastelglueck-static-v1'`), so
the posted version is not the static-cache version identifier. -/
theorem c3_get_version_reply_cex :
    (messageHandler [] (fun _ => none)
        (some ⟨"GET_VERSION"⟩)).postedVersion = some CACHE_NAME
    ∧ (messageHandler [] (fun _ => none)
        (some ⟨"GET_VERSION"⟩)).postedVersion ≠ some STATIC_CACHE := by
  exact ⟨by decide, by decide⟩

/-- C3, amended: for every message whose payload is
`{type: 'GET_VERSION'}`, the worker replies on the provided channel with
`{version: CACHE_NAME}` — the standalone version constant
`'bastelglueck-v1'`, not the static-cache identifier — and performs no
other effect (no skipWaiting, store untouched, nothing rejected). -/
theorem c3_get_version_reply_amended (store : CacheStore) (net : Network)
    (d : MessageData) (h : d.type = "GET_VERSION") :
    (messageHandler store net (some d)).postedVersion = some CACHE_NAME
    ∧ (messageHandler store net (some d)).store = store
    ∧ (messageHandler store net (some d)).skipWaitingCalled = false
    ∧ (messageHandler store net (some d)).waitUntilRejected = false := by
  refine ⟨?_, ?_, ?_, ?_⟩ <;> simp [messageHandler, h]

theorem c3_get_version_reply_witness :
    (messageHandler [("x", [])] (fun _ => none)
        (some ⟨"GET_VERSION"⟩)).postedVersion = some CACHE_NAME :=
  (c3_get_version_reply_amended [("x", [])] (fun _ => none)
    ⟨"GET_VERSION"⟩ rfl).1

/-- C4: for an intercepted GET request that misses the cache, fails on
network and carries an accept header: if the header mentions `text/html`
the cached home document (`caches.match('/index.html')`) is returned; else
if it mentions `image` the synthesized SVG placeholder with content-type
`image/svg+xml` is returned; else the network failure is rethrown. -/
theorem c4_offline_fallback_dispatch (origin : String) (store : CacheStore)
    (net : Network) (req : Request) (a : String)
    (hm : req.method = "GET") (ho : jsStartsWith req.url origin = true)
    (hmiss : cachesMatch store req.url = none) (hnet : net req.url = none)
    (hacc : req.accept = some a) :
    (jsIncludes a "text/html" = true →
      ∀ home, cachesMatch store "/index.html" = some home →
        handleFetch origin store net req = ⟨.served home, store, 1⟩)
    ∧ (jsIncludes a "text/html" = false → jsIncludes a "image" = true →
        handleFetch origin store net req =
          ⟨.served offlineImageResponse, store, 1⟩
        ∧ offlineImageResponse.contentType = "image/svg+xml"
        ∧ offlineImageResponse.status = 200)
    ∧ (jsIncludes a "text/html" = false → jsIncludes a "image" = false →
        handleFetch origin store net req = ⟨.networkFailure, store, 1⟩) := by
  refine ⟨?_, ?_, ?_⟩
  · intro hhtml home hhome
    simp [handleFetch, hm, ho, hmiss, hnet, hacc, hhtml, hhome]
  · intro hhtml himg
    exact ⟨by simp [handleFetch, hm, ho, hmiss, hnet, hacc, hhtml, himg],
      rfl, rfl⟩
  · intro hhtml himg
    simp [handleFetch, hm, ho, hmiss, hnet, hacc, hhtml, himg]

theorem c4_offline_fallback_dispatch_witness :
    handleFetch "https://o" [(STATIC_CACHE, [("/index.html", demoHome)])]
      (fun _ => none) ⟨"GET", "https://o/p", some "text/html"⟩ =
      ⟨.served demoHome, [(STATIC_CACHE, [("/index.html", demoHome)])], 1⟩ :=
  (c4_offline_fallback_dispatch "https://o"
      [(STATIC_CACHE, [("/index.html", demoHome)])] (fun _ => none)
      ⟨"GET", "https://o/p", some "text/html"⟩ "text/html" rfl (by decide)
      (by decide) rfl rfl).1 (by decide) demoHome (by decide)

/-- C8: a `{type: 'CACHE_UPDATE'}` message deletes, recreates and
repopulates the static cache from the fixed manifest: when every manifest
fetch succeeds, the static partition afterwards holds exactly the manifest
paths, each bound to its freshly fetched response (prior entries are
gone), and nothing rejected. -/
theorem c8_cache_update_repopulates (store : CacheStore) (net : Network)
    (h : ∀ p ∈ STATIC_FILES, (net p).isSome = true) :
    ∃ es, getPartition (cacheUpdateHandler store net).1 STATIC_CACHE =
        some es
      ∧ es.map Prod.fst = STATIC_FILES
      ∧ (∀ p ∈ STATIC_FILES, entryLookup es p = net p)
      ∧ (cacheUpdateHandler store net).2 = false := by
  have htot := addAllInto_total net STATIC_FILES h []
  cases hadd : addAllInto net STATIC_FILES [] with
  | none => rw [hadd] at htot; simp at htot
  | some es =>
    refine ⟨es, ?_, ?_, ?_, ?_⟩
    · simp only [cacheUpdateHandler, hadd]
      rw [getPartition_append_right _ _ _
        (getPartition_deletePartition store STATIC_CACHE)]
      simp [getPartition]
    · have hk := addAllInto_fresh_keys net STATIC_FILES [] es (by decide)
        (by simp) hadd
      simpa using hk
    · intro p hp
      exact addAllInto_fresh_lookup net STATIC_FILES [] es p (by decide)
        (by simp) hadd hp
    · simp [cacheUpdateHandler, hadd]

theorem c8_cache_update_repopulates_witness :
    ∃ es, getPartition
        (cacheUpdateHandler [(STATIC_CACHE, [("/old", demoHome)])]
          goodNet).1 STATIC_CACHE = some es
      ∧ es.map Prod.fst = STATIC_FILES
      ∧ (∀ p ∈ STATIC_FILES, entryLookup es p = goodNet p)
      ∧ (cacheUpdateHandler [(STATIC_CACHE, [("/old", demoHome)])]
          goodNet).2 = false :=
  c8_cache_update_repopulates [(STATIC_CACHE, [("/old", demoHome)])]
    goodNet (fun _ _ => rfl)

/-- C9: a same-origin GET request that misses every cache and succeeds on
network with a cacheable response is served that response and the response
is written under the request URL into the dynamic cache; the identical
request issued afterwards is a cache hit: it is served the stored copy
with no further network fetch (`netCalls = 0`), under any network. -/
theorem c9_second_request_dynamic_hit (origin : String) (store : CacheStore)
    (net : Network) (req : Request) (resp : Response)
    (hm : req.method = "GET") (ho : jsStartsWith req.url origin = true)
    (hmiss : cachesMatch store req.url = none)
    (hnet : net req.url = some resp)
    (hs : resp.status = 200) (ht : resp.type = ResponseType.basic) :
    (handleFetch origin store net req).outcome = .served resp
    ∧ (∃ es, getPartition (handleFetch origin store net req).store
          DYNAMIC_CACHE = some es ∧ entryLookup es req.url = some resp)
    ∧ ∀ net2, handleFetch origin (handleFetch origin store net req).store
        net2 req =
        ⟨.served resp, (handleFetch origin store net req).store, 0⟩ := by
  have heq : handleFetch origin store net req =
      ⟨.served resp, openAndPut store DYNAMIC_CACHE req.url resp, 1⟩ := by
    rw [handleFetch_miss_net origin store net req resp hm ho hmiss hnet,
      if_neg]
    simp [hs, ht]
  refine ⟨by rw [heq], ?_, ?_⟩
  · rw [heq]
    exact getPartition_openAndPut store DYNAMIC_CACHE req.url resp hmiss
  · intro net2
    rw [heq]
    have hhit := cachesMatch_openAndPut store DYNAMIC_CACHE req.url resp
      hmiss
    simp [handleFetch, hm, ho, hhit]

theorem c9_second_request_dynamic_hit_witness :
    (handleFetch "https://o" [] goodNet
      ⟨"GET", "https://o/a", none⟩).outcome = .served demoResponse :=
  (c9_second_request_dynamic_hit "https://o" [] goodNet
    ⟨"GET", "https://o/a", none⟩ demoResponse rfl (by decide) rfl rfl rfl
    rfl).1

end SW
